import Mathlib

/-!
Shallow embedding of the dejavu audio-fingerprinting engine
(src/dejavu/fingerprint.py, src/dejavu/__init__.py, src/dejavu/decoder.py).

Peaks are (frequency-bin, time-bin) pairs of naturals; machine integers of
the source are modelled as Nat/Int; Python floats that only carry exact
decimal/rational arithmetic in the claims are modelled as ℚ.
-/

/-! ### Constants from src/dejavu/fingerprint.py -/

def DEFAULT_FS : Nat := 44100

def DEFAULT_WINDOW_SIZE : Nat := 4096

def DEFAULT_OVERLAP_RATIO : ℚ := 1/2

def DEFAULT_FAN_VALUE : Nat := 15

def DEFAULT_AMP_MIN : ℚ := 10

def MIN_HASH_TIME_DELTA : Int := 0

def MAX_HASH_TIME_DELTA : Int := 200

def FINGERPRINT_REDUCTION : Nat := 20

/-! ### SHA-1 (hashlib.sha1), executable over Nat

Words are naturals reduced mod 2^32; messages are byte lists. -/

def w32 (x : Nat) : Nat := x % 4294967296

def rotl (n x : Nat) : Nat := w32 ((x <<< n) ||| (x >>> (32 - n)))

def sha1F (t b c d : Nat) : Nat :=
  if t < 20 then (b &&& c) ||| ((b ^^^ 4294967295) &&& d)
  else if t < 40 then b ^^^ c ^^^ d
  else if t < 60 then (b &&& c) ||| (b &&& d) ||| (c &&& d)
  else b ^^^ c ^^^ d

def sha1K (t : Nat) : Nat :=
  if t < 20 then 0x5A827999
  else if t < 40 then 0x6ED9EBA1
  else if t < 60 then 0x8F1BBCDC
  else 0xCA62C1D6

/-- Big-endian interpretation of a byte list as one machine word. -/
def beWord (bytes : List Nat) : Nat := bytes.foldl (fun a x => a * 256 + x) 0

/-- Split a list into chunks of n elements (fuel-based structural recursion). -/
def chunksAux (n : Nat) : Nat → List α → List (List α)
  | 0, _ => []
  | _, [] => []
  | fuel + 1, l => l.take n :: chunksAux n fuel (l.drop n)

def chunks (n : Nat) (l : List α) : List (List α) := chunksAux n l.length l

/-- SHA-1 padding: append 0x80, zeros to 56 mod 64, then the 64-bit
big-endian bit length. -/
def sha1Pad (msg : List Nat) : List Nat :=
  let ml := 8 * msg.length
  let padZeros := (64 - ((msg.length + 9) % 64)) % 64
  msg ++ [0x80] ++ List.replicate padZeros 0 ++
    (List.range 8).map (fun i => ml >>> (8 * (7 - i)) % 256)

/-- Message-schedule extension of a 16-word block to 80 words. -/
def sha1Extend (w16 : List Nat) : List Nat :=
  (List.range 64).foldl
    (fun w _ =>
      let n := w.length
      w ++ [rotl 1 ((w.getD (n - 3) 0) ^^^ (w.getD (n - 8) 0) ^^^
                    (w.getD (n - 14) 0) ^^^ (w.getD (n - 16) 0))])
    w16

def sha1Compress (h : Nat × Nat × Nat × Nat × Nat) (block : List Nat) :
    Nat × Nat × Nat × Nat × Nat :=
  let w := sha1Extend block
  let f := (List.range 80).foldl
    (fun (s : Nat × Nat × Nat × Nat × Nat) t =>
      let a := s.1; let b := s.2.1; let c := s.2.2.1; let d := s.2.2.2.1
      let e := s.2.2.2.2
      let temp := w32 (rotl 5 a + sha1F t b c d + e + sha1K t + w.getD t 0)
      (temp, a, rotl 30 b, c, d)) h
  (w32 (h.1 + f.1), w32 (h.2.1 + f.2.1), w32 (h.2.2.1 + f.2.2.1),
   w32 (h.2.2.2.1 + f.2.2.2.1), w32 (h.2.2.2.2 + f.2.2.2.2))

def sha1Words (msg : List Nat) : Nat × Nat × Nat × Nat × Nat :=
  let blocks := (chunks 64 (sha1Pad msg)).map (fun b => (chunks 4 b).map beWord)
  blocks.foldl sha1Compress
    (0x67452301, 0xEFCDAB89, 0x98BADCFE, 0x10325476, 0xC3D2E1F0)

def hexDigit (n : Nat) : Char :=
  if n < 10 then Char.ofNat (48 + n) else Char.ofNat (97 + n - 10)

/-- Lowercase hexadecimal rendering of one 32-bit word. -/
def wordHex (x : Nat) : String :=
  String.mk ((List.range 8).map (fun i => hexDigit (x / 16 ^ (7 - i) % 16)))

/-- `hashlib.sha1(...).hexdigest()`: 40 lowercase hex characters. -/
def sha1Hex (msg : List Nat) : String :=
  let h := sha1Words msg
  wordHex h.1 ++ wordHex h.2.1 ++ wordHex h.2.2.1 ++ wordHex h.2.2.2.1 ++
    wordHex h.2.2.2.2

/-- UTF-8 bytes of an ASCII string (all hash inputs here are ASCII, where
the UTF-8 encoding is the codepoint itself). -/
def strBytes (s : String) : List Nat := s.data.map Char.toNat

def sha1HexOfString (s : String) : String := sha1Hex (strBytes s)

set_option maxRecDepth 20000 in
/-- Known SHA-1 test vector, checking the embedding of hashlib.sha1. -/
theorem sha1_abc_selftest :
    sha1HexOfString "abc" = "a9993e364706816aba3e25717850c26c9cd0d89d" := by
  decide

/-! ### Peaks and generate_hashes (src/dejavu/fingerprint.py lines 141-178) -/

/-- A spectral peak: (frequency-bin, time-bin), as produced by get_2D_peaks. -/
abbrev Peak := Nat × Nat

/-- Python's lexicographic tuple order on (freq, time), used by `peaks.sort()`. -/
def peakLe (a b : Peak) : Prop := a.1 < b.1 ∨ (a.1 = b.1 ∧ a.2 ≤ b.2)

instance : DecidableRel peakLe := fun a b => by
  unfold peakLe; exact inferInstance

instance : IsTotal Peak peakLe := by
  constructor; intro a b; unfold peakLe; omega

instance : IsTrans Peak peakLe := by
  constructor; intro a b c; unfold peakLe; omega

instance : IsAntisymm Peak peakLe := by
  constructor; intro a b h h'
  rw [Prod.ext_iff]; unfold peakLe at h h'; omega

/-- `peaks = list(peaks); peaks.sort()` — ascending lexicographic sort. -/
def sortPeaks (peaks : List Peak) : List Peak := List.insertionSort peakLe peaks

/-- The string `"%s|%s|%s" % (str(freq1), str(freq2), str(t_delta))`. -/
def hashString (freq1 freq2 : Nat) (t_delta : Int) : String :=
  toString freq1 ++ "|" ++ toString freq2 ++ "|" ++ toString t_delta

/-- The record yielded for an (anchor, target) peak pair:
`(sha1(maybe_hash).hexdigest()[0:FINGERPRINT_REDUCTION], t1)`. -/
def hashPair (anchor target : Peak) : String × Nat :=
  ((sha1HexOfString
      (hashString anchor.1 target.1 ((target.2 : Int) - (anchor.2 : Int)))).take
     FINGERPRINT_REDUCTION,
   anchor.2)

/-- generate_hashes: sort the peaks, pair each peak `i` with peaks `i+j` for
`j ∈ range(1, fan_value)`, and yield a hash record whenever the time delta
lies within [MIN_HASH_TIME_DELTA, MAX_HASH_TIME_DELTA]. -/
def generate_hashes (peaks : List Peak) (fan_value : Nat) : List (String × Nat) :=
  let ps := sortPeaks peaks
  (List.range ps.length).flatMap (fun i =>
    (List.range' 1 (fan_value - 1)).filterMap (fun j =>
      if i + j < ps.length then
        let p := ps.getD i (0, 0)
        let q := ps.getD (i + j) (0, 0)
        let t_delta : Int := (q.2 : Int) - (p.2 : Int)
        if MIN_HASH_TIME_DELTA ≤ t_delta ∧ t_delta ≤ MAX_HASH_TIME_DELTA then
          some (hashPair p q)
        else none
      else none))

/-- The (anchor, target) pairs inspected by the generate_hashes loops,
before the time-delta filter. -/
def consideredPairs (peaks : List Peak) (fan_value : Nat) : List (Peak × Peak) :=
  let ps := sortPeaks peaks
  (List.range ps.length).flatMap (fun i =>
    (List.range' 1 (fan_value - 1)).filterMap (fun j =>
      if i + j < ps.length then some (ps.getD i (0, 0), ps.getD (i + j) (0, 0))
      else none))

/-- The time-delta filter applied to one considered pair. -/
def emitPair (pq : Peak × Peak) : Option (String × Nat) :=
  let t_delta : Int := (pq.2.2 : Int) - (pq.1.2 : Int)
  if MIN_HASH_TIME_DELTA ≤ t_delta ∧ t_delta ≤ MAX_HASH_TIME_DELTA then
    some (hashPair pq.1 pq.2)
  else none

set_option maxRecDepth 40000 in
/-- Cross-check of the embedded SHA-1 on the exact input of the spec's
two-peak scenario, against the digest of an independent implementation. -/
theorem sha1_100_200_5_selftest :
    sha1HexOfString "100|200|5" =
      "19e03660d91f6336781eaacc91412e255f5834fb" := by
  decide

/-! ### Structural lemmas about generate_hashes -/

theorem filterMap_flatMap_comm (l : List α) (f : α → List β) (g : β → Option γ) :
    (l.flatMap f).filterMap g = l.flatMap (fun a => (f a).filterMap g) := by
  induction l with
  | nil => rfl
  | cons x xs ih => simp [List.filterMap_append, ih]

/-- generate_hashes is the time-delta filter applied to the considered pairs. -/
theorem generate_hashes_eq_filterMap (peaks : List Peak) (fan_value : Nat) :
    generate_hashes peaks fan_value =
      (consideredPairs peaks fan_value).filterMap emitPair := by
  simp only [generate_hashes, consideredPairs]
  rw [filterMap_flatMap_comm]
  congr 1
  funext i
  rw [List.filterMap_filterMap]
  congr 1
  funext j
  by_cases h : i + j < (sortPeaks peaks).length
  · simp [h, emitPair]
  · simp [h]

/-- Both components of any considered pair are peaks of the input list. -/
theorem consideredPairs_mem (peaks : List Peak) (fan_value : Nat) (a b : Peak)
    (h : (a, b) ∈ consideredPairs peaks fan_value) : a ∈ peaks ∧ b ∈ peaks := by
  simp only [consideredPairs] at h
  rw [List.mem_flatMap] at h
  obtain ⟨i, _, h⟩ := h
  rw [List.mem_filterMap] at h
  obtain ⟨j, _, h⟩ := h
  by_cases hc : i + j < (sortPeaks peaks).length
  · rw [if_pos hc] at h
    have hi : i < (sortPeaks peaks).length := by omega
    have hperm := List.perm_insertionSort peakLe peaks
    injection h with h
    rw [Prod.mk.injEq] at h
    constructor
    · rw [← h.1, List.getD_eq_getElem _ _ hi]
      exact hperm.mem_iff.mp (List.getElem_mem hi)
    · rw [← h.2, List.getD_eq_getElem _ _ hc]
      exact hperm.mem_iff.mp (List.getElem_mem hc)
  · rw [if_neg hc] at h
    exact absurd h (Option.noConfusion)

/-- sha1Hex always yields 40 lowercase hexadecimal characters. -/
theorem wordHex_spec (x : Nat) :
    (wordHex x).data.length = 8 ∧
      ∀ c ∈ (wordHex x).data, c ∈ ("0123456789abcdef").data := by
  constructor
  · simp [wordHex]
  · intro c hc
    simp only [wordHex] at hc
    rw [List.mem_map] at hc
    obtain ⟨i, _, hi⟩ := hc
    have hm : x / 16 ^ (7 - i) % 16 < 16 := Nat.mod_lt _ (by omega)
    rw [← hi]
    unfold hexDigit
    interval_cases h : x / 16 ^ (7 - i) % 16 <;> decide

theorem sha1Hex_spec (msg : List Nat) :
    (sha1Hex msg).data.length = 40 ∧
      ∀ c ∈ (sha1Hex msg).data, c ∈ ("0123456789abcdef").data := by
  unfold sha1Hex
  constructor
  · simp only [String.data_append, List.length_append]
    rw [(wordHex_spec _).1, (wordHex_spec _).1, (wordHex_spec _).1,
        (wordHex_spec _).1, (wordHex_spec _).1]
  · intro c hc
    simp only [String.data_append, List.mem_append] at hc
    rcases hc with ((((h | h) | h) | h) | h) <;> exact (wordHex_spec _).2 c h

/-- Every hash record is 20 lowercase hex characters long. -/
theorem hashPair_format (a b : Peak) :
    (hashPair a b).1.data.length = 20 ∧
      ∀ c ∈ (hashPair a b).1.data, c ∈ ("0123456789abcdef").data := by
  have hs := sha1Hex_spec (strBytes (hashString a.1 b.1 ((b.2 : Int) - (a.2 : Int))))
  simp only [hashPair, FINGERPRINT_REDUCTION, sha1HexOfString, String.data_take]
  constructor
  · rw [List.length_take, hs.1]
    decide
  · intro c hc
    exact hs.2 c (List.take_subset _ _ hc)

/-! ### Claim theorems about generate_hashes -/

set_option maxRecDepth 40000 in
/-- C1: every record yielded by generate_hashes is a pair (h, t1) where h is
the first 20 lowercase hex characters of the SHA-1 digest of the ASCII string
"freq1|freq2|dt" (decimal anchor frequency, target frequency, time delta) and
t1 is the anchor peak's time bin; in particular, for peaks (100,10), (200,15)
with fan_value 15 exactly one record is produced, its hash is
sha1("100|200|5") truncated to 20 lowercase hex characters, and its anchor
time is 10. -/
theorem c1_records_are_truncated_sha1 :
    (∀ (peaks : List Peak) (fan_value : Nat) (r : String × Nat),
      r ∈ generate_hashes peaks fan_value →
      ∃ anchor target : Peak, anchor ∈ peaks ∧ target ∈ peaks ∧
        (0 : Int) ≤ (target.2 : Int) - (anchor.2 : Int) ∧
        r = ((sha1HexOfString
                (hashString anchor.1 target.1
                  ((target.2 : Int) - (anchor.2 : Int)))).take 20,
             anchor.2) ∧
        r.1.data.length = 20 ∧
        (∀ c ∈ r.1.data, c ∈ ("0123456789abcdef").data)) ∧
    generate_hashes [(100, 10), (200, 15)] 15 =
      [((sha1HexOfString "100|200|5").take 20, 10)] := by
  constructor
  · intro peaks fan_value r hr
    rw [generate_hashes_eq_filterMap, List.mem_filterMap] at hr
    obtain ⟨⟨a, b⟩, hpq, hemit⟩ := hr
    have hmem := consideredPairs_mem peaks fan_value a b hpq
    simp only [emitPair] at hemit
    split at hemit
    case isTrue h =>
      injection hemit with hemit
      subst hemit
      refine ⟨a, b, hmem.1, hmem.2, ?_, ?_, ?_, ?_⟩
      · have h1 := h.1
        unfold MIN_HASH_TIME_DELTA at h1
        exact h1
      · rfl
      · exact (hashPair_format a b).1
      · exact (hashPair_format a b).2
    case isFalse => exact absurd hemit (Option.noConfusion)
  · decide

set_option maxRecDepth 40000 in
/-- C1 witness: the generality applied to the two-peak example. -/
theorem c1_records_are_truncated_sha1_witness :
    ((sha1HexOfString "100|200|5").take 20, 10) ∈
        generate_hashes [(100, 10), (200, 15)] 15 ∧
      (∃ anchor target : Peak,
        anchor ∈ ([(100, 10), (200, 15)] : List Peak) ∧
        target ∈ ([(100, 10), (200, 15)] : List Peak) ∧
        (0 : Int) ≤ (target.2 : Int) - (anchor.2 : Int) ∧
        ((sha1HexOfString "100|200|5").take 20, (10 : Nat)) =
          ((sha1HexOfString
              (hashString anchor.1 target.1
                ((target.2 : Int) - (anchor.2 : Int)))).take 20,
           anchor.2) ∧
        ((sha1HexOfString "100|200|5").take 20).data.length = 20 ∧
        (∀ c ∈ ((sha1HexOfString "100|200|5").take 20).data,
          c ∈ ("0123456789abcdef").data)) :=
  ⟨by decide,
   c1_records_are_truncated_sha1.1 [(100, 10), (200, 15)] 15 _ (by decide)⟩

set_option maxRecDepth 40000 in
/-- C2: generate_hashes emits a record for a considered (anchor, target) pair
iff the time delta lies in [0, 200]; concretely, from peaks (10,0), (10,5),
(10,250) only the Δt = 5 pair yields a record, the Δt = 250 and Δt = 245
pairs are dropped. -/
theorem c2_time_delta_bounds :
    (∀ (peaks : List Peak) (fan_value : Nat),
      generate_hashes peaks fan_value =
        (consideredPairs peaks fan_value).filterMap emitPair) ∧
    (∀ pq : Peak × Peak,
      emitPair pq =
        if (0 : Int) ≤ (pq.2.2 : Int) - (pq.1.2 : Int) ∧
            (pq.2.2 : Int) - (pq.1.2 : Int) ≤ 200 then
          some (hashPair pq.1 pq.2)
        else none) ∧
    generate_hashes [(10, 0), (10, 5), (10, 250)] 15 =
      [((sha1HexOfString "10|10|5").take 20, 0)] := by
  refine ⟨generate_hashes_eq_filterMap, ?_, by decide⟩
  intro pq
  simp only [emitPair, MIN_HASH_TIME_DELTA, MAX_HASH_TIME_DELTA]

/-- C3: generate_hashes sorts the peaks ascending lexicographically by
(frequency-bin, time-bin) before pairing; consequently any two permutations
of the same multiset of peaks yield the same sequence of records. -/
theorem c3_sorting_and_permutation_invariance :
    (∀ peaks : List Peak,
      List.Sorted peakLe (sortPeaks peaks) ∧ List.Perm (sortPeaks peaks) peaks) ∧
    (∀ (fan_value : Nat) (l1 l2 : List Peak), List.Perm l1 l2 →
      generate_hashes l1 fan_value = generate_hashes l2 fan_value) := by
  constructor
  · intro peaks
    exact ⟨List.sorted_insertionSort peakLe peaks,
           List.perm_insertionSort peakLe peaks⟩
  · intro fan_value l1 l2 h
    have hs : sortPeaks l1 = sortPeaks l2 :=
      List.eq_of_perm_of_sorted
        (((List.perm_insertionSort peakLe l1).trans h).trans
          (List.perm_insertionSort peakLe l2).symm)
        (List.sorted_insertionSort peakLe l1)
        (List.sorted_insertionSort peakLe l2)
    simp only [generate_hashes, sortPeaks] at *
    rw [hs]

set_option maxRecDepth 40000 in
/-- C3 witness: two permutations of the same two peaks hash identically. -/
theorem c3_sorting_and_permutation_invariance_witness :
    List.Perm ([(200, 15), (100, 10)] : List Peak) [(100, 10), (200, 15)] ∧
      generate_hashes [(200, 15), (100, 10)] 15 =
        generate_hashes [(100, 10), (200, 15)] 15 :=
  ⟨by decide,
   c3_sorting_and_permutation_invariance.2 15 _ _ (by decide)⟩

/-- C10: for fan_value ≤ 1 the target zone `range(1, fan_value)` is empty,
so generate_hashes yields no records at all. -/
theorem c10_fan_value_le_one_empty :
    ∀ (peaks : List Peak) (fan_value : Nat), fan_value ≤ 1 →
      generate_hashes peaks fan_value = [] := by
  intro peaks fan_value h
  have h0 : fan_value - 1 = 0 := by omega
  simp [generate_hashes, h0]

/-- C10 witness: a single peak with fan_value 1 yields nothing. -/
theorem c10_fan_value_le_one_empty_witness :
    (1 : Nat) ≤ 1 ∧ generate_hashes [(5, 5)] 1 = [] :=
  ⟨by decide, c10_fan_value_le_one_empty [(5, 5)] 1 (by decide)⟩

/-! ### align_matches (src/dejavu/__init__.py lines 138-192)

The two-level Python dict diff_counter is modelled as a total tally function
defaulting to 0, which matches the source's initialise-to-0-then-increment
pattern. song ids and offset diffs are Python ints, modelled as Int. -/

structure AlignState where
  count : Int → Int → Nat
  largest : Int
  largest_count : Nat
  song_id : Int

/-- `largest = 0; largest_count = 0; song_id = -1` with an empty counter. -/
def alignInit : AlignState :=
  { count := fun _ _ => 0, largest := 0, largest_count := 0, song_id := -1 }

/-- The effect of `diff_counter[diff][sid] += 1` on the tally function. -/
def bumpCount (count : Int → Int → Nat) (diff sid : Int) : Int → Int → Nat :=
  fun d s => if d = diff ∧ s = sid then count diff sid + 1 else count d s

/-- One iteration of the `for tup in matches` loop: increment
diff_counter[diff][sid], then displace the running argmax only on a
strictly greater tally. -/
def alignStep (st : AlignState) (m : Int × Int) : AlignState :=
  let sid := m.1
  let diff := m.2
  let c := st.count diff sid + 1
  if st.largest_count < c then
    { count := bumpCount st.count diff sid, largest := diff,
      largest_count := c, song_id := sid }
  else
    { count := bumpCount st.count diff sid, largest := st.largest,
      largest_count := st.largest_count, song_id := st.song_id }

/-- The whole `for tup in matches` loop. -/
def alignFold (ms : List (Int × Int)) : AlignState :=
  ms.foldl alignStep alignInit

/-- A catalog row as returned by `db.get_song_by_id` (§6 interface). -/
structure SongRow where
  song_name : String
  file_sha1 : String

/-- The dict returned by align_matches on success. -/
structure SongResult where
  song_id : Int
  song_name : String
  confidence : Nat
  offset : Int
  offset_seconds : ℚ
  file_sha1 : String

/-- Python's round-half-to-even at `ndigits` decimal places, over exact
rationals. -/
def pythonRound (ndigits : Nat) (x : ℚ) : ℚ :=
  let scaled := x * 10 ^ ndigits
  let f : Int := Rat.floor scaled
  let r : ℚ := scaled - (f : ℚ)
  let n : Int :=
    if r < 1/2 then f
    else if 1/2 < r then f + 1
    else if f % 2 = 0 then f else f + 1
  (n : ℚ) / 10 ^ ndigits

/-- `nseconds = round(float(largest) / DEFAULT_FS * DEFAULT_WINDOW_SIZE *
DEFAULT_OVERLAP_RATIO, 5)`. -/
def nseconds (largest : Int) : ℚ :=
  pythonRound 5 ((largest : ℚ) / (DEFAULT_FS : ℚ) * (DEFAULT_WINDOW_SIZE : ℚ) *
    DEFAULT_OVERLAP_RATIO)

/-- align_matches: run the tally loop, look the winning song_id up in the
catalog (a collaborator behind the §6 interface, passed as a function), and
build the result dict; a missing row gives None. -/
def align_matches (db : Int → Option SongRow) (ms : List (Int × Int)) :
    Option SongResult :=
  let st := alignFold ms
  match db st.song_id with
  | none => none
  | some song =>
      some { song_id := st.song_id, song_name := song.song_name,
             confidence := st.largest_count, offset := st.largest,
             offset_seconds := nseconds st.largest,
             file_sha1 := song.file_sha1 }

theorem bumpCount_apply (c : Int → Int → Nat) (diff sid d s : Int) :
    bumpCount c diff sid d s =
      if d = diff ∧ s = sid then c diff sid + 1 else c d s := rfl

/-- The per-step tally bound is preserved by one loop iteration. -/
theorem alignStep_count_le (st : AlignState) (m : Int × Int)
    (h : ∀ d s, st.count d s ≤ st.largest_count) :
    ∀ d s, (alignStep st m).count d s ≤ (alignStep st m).largest_count := by
  intro d s
  have hds := h d s
  simp only [alignStep]
  by_cases hc : st.largest_count < st.count m.2 m.1 + 1 <;>
    simp only [hc, if_true, if_false, bumpCount_apply] <;>
    split_ifs <;> omega

/-- The tally never exceeds the running maximum, from any invariant state. -/
theorem alignFoldFrom_count_le (ms : List (Int × Int)) :
    ∀ st : AlignState, (∀ d s, st.count d s ≤ st.largest_count) →
      ∀ d s, (ms.foldl alignStep st).count d s ≤
        (ms.foldl alignStep st).largest_count := by
  induction ms with
  | nil => intro st h; exact h
  | cons m rest ih =>
    intro st h
    exact ih (alignStep st m) (alignStep_count_le st m h)

/-- C4: the winner is the running argmax of the tally with strict-greater
comparison after each increment — a step increments the pair's tally, a
strictly greater tally displaces the running winner, an equal (or smaller)
tally leaves it in place, the running maximum dominates every tally; and on
the tied input [(1,0),(2,7)] the first pair to reach the maximum wins. -/
theorem c4_strict_argmax_first_seen_wins :
    (∀ (st : AlignState) (sid diff : Int),
      (alignStep st (sid, diff)).count diff sid = st.count diff sid + 1 ∧
      (st.largest_count < st.count diff sid + 1 →
        (alignStep st (sid, diff)).largest = diff ∧
        (alignStep st (sid, diff)).song_id = sid ∧
        (alignStep st (sid, diff)).largest_count = st.count diff sid + 1) ∧
      (st.count diff sid + 1 ≤ st.largest_count →
        (alignStep st (sid, diff)).largest = st.largest ∧
        (alignStep st (sid, diff)).song_id = st.song_id ∧
        (alignStep st (sid, diff)).largest_count = st.largest_count)) ∧
    (∀ (ms : List (Int × Int)) (d s : Int),
      (alignFold ms).count d s ≤ (alignFold ms).largest_count) ∧
    ((alignFold [(1, 0), (2, 7)]).song_id = 1 ∧
      (alignFold [(1, 0), (2, 7)]).largest = 0 ∧
      (alignFold [(1, 0), (2, 7)]).largest_count = 1 ∧
      (alignFold [(1, 0), (2, 7)]).count 7 2 = 1) := by
  refine ⟨?_, ?_, ?_, ?_, ?_, ?_⟩
  · intro st sid diff
    dsimp only [alignStep]
    by_cases hc : st.largest_count < st.count diff sid + 1
    · rw [if_pos hc]
      exact ⟨by simp [bumpCount_apply], fun _ => ⟨rfl, rfl, rfl⟩,
             fun h => absurd hc (by omega)⟩
    · rw [if_neg hc]
      exact ⟨by simp [bumpCount_apply], fun h => absurd h hc,
             fun _ => ⟨rfl, rfl, rfl⟩⟩
  · intro ms d s
    exact alignFoldFrom_count_le ms alignInit (fun _ _ => Nat.le_refl 0) d s
  · rfl
  · rfl
  · rfl
  · rfl

/-- C4 witness: from the initial state, the very first pair strictly exceeds
the running maximum 0 and becomes the winner. -/
theorem c4_strict_argmax_first_seen_wins_witness :
    alignInit.largest_count < alignInit.count 4 3 + 1 ∧
      ((alignStep alignInit (3, 4)).largest = 4 ∧
        (alignStep alignInit (3, 4)).song_id = 3 ∧
        (alignStep alignInit (3, 4)).largest_count = alignInit.count 4 3 + 1) :=
  ⟨by decide, ((c4_strict_argmax_first_seen_wins.1 alignInit 3 4).2.1 (by decide))⟩

/-- C5: align_matches returns None for zero input pairs (the sentinel song_id
-1 has no catalog row), returns None whenever the winning song_id has no
catalog row, and otherwise returns the descriptor with song_id, song_name,
confidence, offset, offset_seconds and file_sha1. -/
theorem c5_none_iff_no_song :
    (∀ db : Int → Option SongRow, db (-1) = none → align_matches db [] = none) ∧
    (∀ (db : Int → Option SongRow) (ms : List (Int × Int)),
      db (alignFold ms).song_id = none → align_matches db ms = none) ∧
    (∀ (db : Int → Option SongRow) (ms : List (Int × Int)) (row : SongRow),
      db (alignFold ms).song_id = some row →
      align_matches db ms =
        some { song_id := (alignFold ms).song_id, song_name := row.song_name,
               confidence := (alignFold ms).largest_count,
               offset := (alignFold ms).largest,
               offset_seconds := nseconds (alignFold ms).largest,
               file_sha1 := row.file_sha1 }) := by
  refine ⟨?_, ?_, ?_⟩
  · intro db h
    have h1 : (alignFold []).song_id = -1 := rfl
    simp only [align_matches, h1, h]
  · intro db ms h
    simp only [align_matches, h]
  · intro db ms row h
    simp only [align_matches, h]

/-- C5 witness: an empty catalog and an empty match list give None. -/
theorem c5_none_iff_no_song_witness :
    (fun _ : Int => (none : Option SongRow)) (-1) = none ∧
      align_matches (fun _ : Int => (none : Option SongRow)) [] = none :=
  ⟨rfl, c5_none_iff_no_song.1 (fun _ => none) rfl⟩

/-- C6: any result returned by align_matches satisfies
offset_seconds = round(Δ × 4096 × 0.5 / 44100, 5), the frame delta converted
to seconds with the window stride at the default sample rate (exact rational
arithmetic, round-half-to-even at 5 decimal places). -/
theorem c6_offset_seconds_conversion :
    ∀ (db : Int → Option SongRow) (ms : List (Int × Int)) (r : SongResult),
      align_matches db ms = some r →
      r.offset_seconds =
        pythonRound 5 ((r.offset : ℚ) * 4096 * (1/2) / 44100) := by
  intro db ms r h
  simp only [align_matches] at h
  split at h
  · exact absurd h (Option.noConfusion)
  · injection h with h
    subst h
    simp only [nseconds, DEFAULT_FS, DEFAULT_WINDOW_SIZE, DEFAULT_OVERLAP_RATIO]
    congr 1
    push_cast
    ring

/-- A one-row catalog used by the C6 witness. -/
def dbC6 : Int → Option SongRow :=
  fun _ => some { song_name := "a", file_sha1 := "b" }

/-- The result align_matches returns on dbC6 and the single pair (1, 3). -/
def resC6 : SongResult :=
  { song_id := 1, song_name := "a", confidence := 1, offset := 3,
    offset_seconds := nseconds 3, file_sha1 := "b" }

/-- C6 witness: the conversion formula holds on a concrete returned result. -/
theorem c6_offset_seconds_conversion_witness :
    align_matches dbC6 [(1, 3)] = some resC6 ∧
      resC6.offset_seconds =
        pythonRound 5 ((resC6.offset : ℚ) * 4096 * (1/2) / 44100) :=
  ⟨rfl, c6_offset_seconds_conversion dbC6 [(1, 3)] resC6 rfl⟩

/-! ### fingerprint pipeline (src/dejavu/fingerprint.py lines 64-138)

The spectrogram numerics (matplotlib's mlab.specgram, the log transform and
scipy's maximum_filter / binary_erosion masks) are external library code, not
part of this repository's sources; they are modelled from the spec at the
interface level, with the dense numerics abstracted as parameters. -/

/-- Modelled from the spec: the spectrogram stage (§4.1, `mlab.specgram`
followed by the 10·log10 transform, both external library code). A channel
shorter than `NFFT = DEFAULT_WINDOW_SIZE` samples yields an empty matrix;
otherwise the log-power time-frequency matrix, abstracted as `stft`, with
rows indexed by frequency bin and columns by time frame. -/
def specgram (stft : List Int → List (List ℚ)) (samples : List Int)
    (wsize : Nat) : List (List ℚ) :=
  if samples.length < wsize then [] else stft samples

/-- Modelled from the spec: get_2D_peaks (§4.2). The boolean detected-peak
mask built by scipy's maximum_filter / binary_erosion (external library code)
is abstracted as `detect`; every detected cell of the matrix whose amplitude
exceeds amp_min is emitted as a (frequency-bin, time-bin) peak. -/
def get_2D_peaks (detect : List (List ℚ) → Nat → Nat → Bool)
    (arr2D : List (List ℚ)) (amp_min : ℚ) : List Peak :=
  (List.range arr2D.length).flatMap (fun f =>
    (List.range (arr2D.getD f []).length).filterMap (fun t =>
      if detect arr2D f t ∧ amp_min < (arr2D.getD f []).getD t 0 then
        some (f, t)
      else none))

/-- fingerprint: spectrogram, then peaks, then hashes, per channel. -/
def fingerprint (stft : List Int → List (List ℚ))
    (detect : List (List ℚ) → Nat → Nat → Bool) (channel_samples : List Int)
    (fan_value : Nat) (amp_min : ℚ) : List (String × Nat) :=
  let arr2D := specgram stft channel_samples DEFAULT_WINDOW_SIZE
  generate_hashes (get_2D_peaks detect arr2D amp_min) fan_value

/-- C7: a channel with fewer than NFFT = 4096 samples gives an empty
spectrogram matrix, hence no peaks and zero hashes, with no error. -/
theorem c7_short_channel_yields_nothing :
    ∀ (stft : List Int → List (List ℚ))
      (detect : List (List ℚ) → Nat → Nat → Bool)
      (samples : List Int) (fan_value : Nat) (amp_min : ℚ),
      samples.length < 4096 →
      specgram stft samples DEFAULT_WINDOW_SIZE = [] ∧
      get_2D_peaks detect (specgram stft samples DEFAULT_WINDOW_SIZE) amp_min
        = [] ∧
      fingerprint stft detect samples fan_value amp_min = [] := by
  intro stft detect samples fan_value amp_min h
  have hs : specgram stft samples DEFAULT_WINDOW_SIZE = [] := by
    simp only [specgram, DEFAULT_WINDOW_SIZE]
    rw [if_pos h]
  refine ⟨hs, ?_, ?_⟩
  · rw [hs]
    rfl
  · simp only [fingerprint, hs]
    rfl

/-- C7 witness: the empty channel produces an empty matrix, no peaks and no
hashes. -/
theorem c7_short_channel_yields_nothing_witness :
    ([] : List Int).length < 4096 ∧
      (specgram (fun _ => []) [] DEFAULT_WINDOW_SIZE = [] ∧
        get_2D_peaks (fun _ _ _ => true)
          (specgram (fun _ => []) [] DEFAULT_WINDOW_SIZE) 10 = [] ∧
        fingerprint (fun _ => []) (fun _ _ _ => true) [] 15 10 = []) :=
  ⟨by decide,
   c7_short_channel_yields_nothing (fun _ => []) (fun _ _ _ => true) [] 15 10
     (by decide)⟩

/-! ### _fingerprint_worker (src/dejavu/__init__.py lines 199-236)

The worker decodes to channels (decoder is the external audio collaborator,
so the channel list and the per-channel fingerprint pipeline are parameters)
and accumulates `result = set(); result |= set(hashes)` per channel; the
Python set of records is a Finset. -/

def workerHashes (fp : List Int → List (String × Nat))
    (channels : List (List Int)) : Finset (String × Nat) :=
  channels.foldl (fun result channel => result ∪ (fp channel).toFinset) ∅

theorem workerHashes_mem_aux (fp : List Int → List (String × Nat))
    (channels : List (List Int)) :
    ∀ (acc : Finset (String × Nat)) (x : String × Nat),
      x ∈ channels.foldl (fun result channel =>
          result ∪ (fp channel).toFinset) acc ↔
        x ∈ acc ∨ ∃ ch ∈ channels, x ∈ fp ch := by
  induction channels with
  | nil => intro acc x; simp
  | cons c cs ih =>
    intro acc x
    simp only [List.foldl_cons]
    rw [ih]
    simp only [Finset.mem_union, List.mem_toFinset, List.mem_cons]
    constructor
    · rintro ((h | h) | ⟨ch, hch, hx⟩)
      · exact Or.inl h
      · exact Or.inr ⟨c, Or.inl rfl, h⟩
      · exact Or.inr ⟨ch, Or.inr hch, hx⟩
    · rintro (h | ⟨ch, (rfl | hch), hx⟩)
      · exact Or.inl (Or.inl h)
      · exact Or.inl (Or.inr hx)
      · exact Or.inr ⟨ch, hch, hx⟩

/-- C8: the worker's hash collection is the set-union of the per-channel hash
record sets — a record is in it iff some channel produced it, each record
occurs once, and the collection does not depend on the channel order. -/
theorem c8_worker_union_of_channels :
    (∀ (fp : List Int → List (String × Nat)) (channels : List (List Int))
        (x : String × Nat),
      x ∈ workerHashes fp channels ↔ ∃ ch ∈ channels, x ∈ fp ch) ∧
    (∀ (fp : List Int → List (String × Nat)) (channels : List (List Int)),
      (workerHashes fp channels).val.Nodup) ∧
    (∀ (fp : List Int → List (String × Nat)) (c1 c2 : List (List Int)),
      List.Perm c1 c2 → workerHashes fp c1 = workerHashes fp c2) := by
  refine ⟨?_, ?_, ?_⟩
  · intro fp channels x
    rw [workerHashes, workerHashes_mem_aux]
    simp
  · intro fp channels
    exact (workerHashes fp channels).nodup
  · intro fp c1 c2 h
    apply Finset.ext
    intro x
    rw [workerHashes, workerHashes, workerHashes_mem_aux, workerHashes_mem_aux]
    simp only [Finset.not_mem_empty, false_or]
    constructor
    · rintro ⟨ch, hch, hx⟩
      exact ⟨ch, h.mem_iff.mp hch, hx⟩
    · rintro ⟨ch, hch, hx⟩
      exact ⟨ch, h.mem_iff.mpr hch, hx⟩

/-- A per-channel fingerprint function used by the C8 witness. -/
def fpC8 : List Int → List (String × Nat) := fun ch => [("a", ch.length)]

/-- C8 witness: swapping two channels leaves the hash collection unchanged. -/
theorem c8_worker_union_of_channels_witness :
    List.Perm ([[1], [2]] : List (List Int)) [[2], [1]] ∧
      workerHashes fpC8 [[1], [2]] = workerHashes fpC8 [[2], [1]] :=
  ⟨by decide, c8_worker_union_of_channels.2.2 fpC8 [[1], [2]] [[2], [1]]
    (by decide)⟩

/-! ### fingerprint_limit (src/dejavu/__init__.py lines 30-36 and
decoder.read, src/dejavu/decoder.py lines 53-102) -/

/-- `self.limit = config.get("fingerprint_limit", None)` followed by
`if self.limit == -1: self.limit = None` — JSON null and -1 both mean
"use the entire track". -/
def dejavuLimit (fingerprint_limit : Option Int) : Option Int :=
  if fingerprint_limit = some (-1) then none else fingerprint_limit

/-- Python's `seq[:k]`: a nonnegative bound keeps the first k items, a
negative bound keeps all but the last |k|. -/
def pySlice (l : List α) (k : Int) : List α :=
  if 0 ≤ k then l.take k.toNat else l.take (l.length - (-k).toNat)

/-- decoder.read's truncation: `if limit: audiofile = audiofile[:limit * 1000]`
on the millisecond-indexed AudioSegment (modelled as its list of
milliseconds); a falsy limit (None or 0) leaves the track whole. -/
def readTruncate (audio : List α) (limit : Option Int) : List α :=
  match limit with
  | none => audio
  | some l => if l = 0 then audio else pySlice audio (l * 1000)

/-- C9: fingerprint_limit null or -1 ingests the entire track (no
truncation in the decoder), and a positive limit keeps exactly the first
`limit` seconds (`limit * 1000` milliseconds) from the start. -/
theorem c9_fingerprint_limit_truncation :
    (∀ (α : Type) (audio : List α),
      readTruncate audio (dejavuLimit none) = audio) ∧
    (∀ (α : Type) (audio : List α),
      readTruncate audio (dejavuLimit (some (-1))) = audio) ∧
    (∀ (α : Type) (audio : List α) (l : Int), 0 < l →
      readTruncate audio (dejavuLimit (some l)) =
        audio.take (l * 1000).toNat) := by
  refine ⟨fun α audio => rfl, fun α audio => rfl, ?_⟩
  intro α audio l hl
  have hne : (some l : Option Int) ≠ some (-1) := by
    simp only [ne_eq, Option.some.injEq]
    omega
  have h1 : dejavuLimit (some l) = some l := by
    unfold dejavuLimit
    rw [if_neg hne]
  rw [h1]
  have h2 : ¬(l = 0) := by omega
  simp only [readTruncate, if_neg h2, pySlice]
  rw [if_pos (by omega : (0 : Int) ≤ l * 1000)]

/-- C9 witness: a 2-second limit keeps the first 2000 milliseconds. -/
theorem c9_fingerprint_limit_truncation_witness :
    (0 : Int) < 2 ∧
      readTruncate (List.range 2500) (dejavuLimit (some 2)) =
        (List.range 2500).take ((2 : Int) * 1000).toNat :=
  ⟨by decide,
   c9_fingerprint_limit_truncation.2.2 Nat (List.range 2500) 2 (by decide)⟩
